import Mathlib

/-!
Verification of the GPU work-distribution engine of the OpenMP NVPTX
code-generation runtime (`CGOpenMPRuntimeNVPTX`).  The repository ships
only the class header `lib/CodeGen/CGOpenMPRuntimeNVPTX.h`; the bodies of
the declared member functions are not part of the sources, so every
operation below is modelled from the specification (and from the doc
comments carried by the header), as noted on each definition.
-/

namespace NVPTX

/-! ## ThreadGeometry -/

/-- Modelled from the spec: the body of `getMasterThreadID` is not in the
sources (only its declaration in `CGOpenMPRuntimeNVPTX.h`).  Per the spec,
`MasterId = floor((BlockThreadCount - 1) / WarpSize) * WarpSize`, the first
lane (thread) of the last warp of the block.  Arguments are the block
thread count and the warp size. -/
def getMasterThreadID (blockThreadCount warpSize : Nat) : Nat :=
  ((blockThreadCount - 1) / warpSize) * warpSize

/-- Modelled from the spec: the body of `getNumWorkers` is not in the
sources.  Per the spec, `WorkerCount() = MasterId()`: the workers are
exactly the threads below the master thread id, i.e. all threads of the
block except the last (master) warp. -/
def getNumWorkers (blockThreadCount warpSize : Nat) : Nat :=
  getMasterThreadID blockThreadCount warpSize

/-- Modelled from the spec: the body of `getGlobalThreadId` is not in the
sources.  Per the spec, `GlobalThreadId() = BlockId * BlockThreadCount +
ThreadId`. -/
def getGlobalThreadId (blockId blockThreadCount threadId : Nat) : Nat :=
  blockId * blockThreadCount + threadId

/-- Modelled from the spec: the body of `getTeamThreadId` is not in the
sources.  Per the spec, `TeamLocalThreadId() = GlobalThreadId mod
BlockThreadCount` (the header flags the remainder as expensive but keeps
the modulus semantics). -/
def getTeamThreadId (blockId blockThreadCount threadId : Nat) : Nat :=
  getGlobalThreadId blockId blockThreadCount threadId % blockThreadCount

end NVPTX

open NVPTX

/-- C1: for every positive `BlockThreadCount` and power-of-two `WarpSize`,
`getMasterThreadID` returns `floor((BlockThreadCount-1)/WarpSize) *
WarpSize`, the first lane of the last warp; for every `BlockThreadCount`
that is a positive multiple of `WarpSize` it equals `BlockThreadCount -
WarpSize`; and for `WarpSize = 32`, `BlockThreadCount = 33` gives `32` and
`BlockThreadCount = 1024` gives `992`. -/
theorem getMasterThreadID_spec (n w : Nat) (hn : 0 < n) (hw : ∃ k, w = 2 ^ k) :
    getMasterThreadID n w = ((n - 1) / w) * w ∧
    (∀ m : Nat, 0 < m → n = m * w → getMasterThreadID n w = n - w) ∧
    getMasterThreadID 33 32 = 32 ∧ getMasterThreadID 1024 32 = 992 := by
  refine ⟨rfl, ?_, by decide, by decide⟩
  intro m hm hmw
  obtain ⟨k, rfl⟩ := hw
  have hwpos : 0 < 2 ^ k := Nat.pos_pow_of_pos k (by decide)
  subst hmw
  unfold getMasterThreadID
  have h1 : m * 2 ^ k - 1 = (2 ^ k - 1) + (m - 1) * 2 ^ k := by
    have : 1 ≤ m * 2 ^ k := Nat.one_le_iff_ne_zero.mpr
      (Nat.mul_ne_zero (Nat.pos_iff_ne_zero.mp hm) (Nat.pos_iff_ne_zero.mp hwpos))
    cases m with
    | zero => omega
    | succ m' => simp [Nat.succ_mul]; omega
  have h2 : (m * 2 ^ k - 1) / 2 ^ k = m - 1 := by
    rw [h1, Nat.add_mul_div_right _ _ hwpos, Nat.div_eq_of_lt (by omega), Nat.zero_add]
  rw [h2, Nat.sub_mul, Nat.one_mul]

/-- Witness for C1 at `n = 64`, `w = 32`. -/
theorem getMasterThreadID_spec_witness :
    getMasterThreadID 64 32 = ((64 - 1) / 32) * 32 ∧
    (∀ m : Nat, 0 < m → 64 = m * 32 → getMasterThreadID 64 32 = 64 - 32) ∧
    getMasterThreadID 33 32 = 32 ∧ getMasterThreadID 1024 32 = 992 :=
  getMasterThreadID_spec 64 32 (by decide) ⟨5, by decide⟩

/-- C4: for every `BlockThreadCount` (and warp size), `getNumWorkers`
returns the same value as `getMasterThreadID`, so the worker threads
occupy exactly the thread-id interval `[0, MasterId)`. -/
theorem getNumWorkers_eq_masterThreadID (n w : Nat) :
    getNumWorkers n w = getMasterThreadID n w ∧
    (∀ t : Nat, t < getNumWorkers n w ↔ t < getMasterThreadID n w) :=
  ⟨rfl, fun _ => Iff.rfl⟩

/-- C9: for every `BlockId`, `ThreadId` and positive `BlockThreadCount`,
`getGlobalThreadId = BlockId * BlockThreadCount + ThreadId` and
`getTeamThreadId = GlobalThreadId mod BlockThreadCount`; the modulus
semantics is the genuine remainder (in particular it recovers `ThreadId`
whenever `ThreadId < BlockThreadCount`). -/
theorem getTeamThreadId_spec (b n t : Nat) (_hn : 0 < n) :
    getGlobalThreadId b n t = b * n + t ∧
    getTeamThreadId b n t = getGlobalThreadId b n t % n ∧
    (t < n → getTeamThreadId b n t = t) := by
  refine ⟨rfl, rfl, fun ht => ?_⟩
  unfold getTeamThreadId getGlobalThreadId
  rw [Nat.add_comm, Nat.add_mul_mod_self_right, Nat.mod_eq_of_lt ht]

/-- Witness for C9 at `BlockId = 3`, `BlockThreadCount = 64`,
`ThreadId = 17`. -/
theorem getTeamThreadId_spec_witness :
    getGlobalThreadId 3 64 17 = 3 * 64 + 17 ∧
    getTeamThreadId 3 64 17 = getGlobalThreadId 3 64 17 % 64 ∧
    (17 < 64 → getTeamThreadId 3 64 17 = 17) :=
  getTeamThreadId_spec 3 64 17 (by decide)

namespace NVPTX

/-! ## ScheduleSelector -/

/-- Kinds of the OpenMP `schedule` clause (`OpenMPScheduleClauseKind`);
`unknown` stands for an absent clause, in which case the schedule defaults
to static. -/
inductive OpenMPScheduleClauseKind where
  | static | dynamic | guided | auto | runtime | unknown
deriving DecidableEq, Repr

/-- Modelled from the spec: the body of `generateCoalescedSchedule` is not
in the sources (only its declaration in `CGOpenMPRuntimeNVPTX.h`).  Per
the spec, the coalesced schedule (static with chunk size 1, a direct
thread-id-to-iteration mapping) is chosen exactly when the schedule kind
is default static, the chunk size is absent or exactly one
(`chunkSizeOne`), and the loop is not `ordered`. -/
def generateCoalescedSchedule (scheduleKind : OpenMPScheduleClauseKind)
    (chunkSizeOne ordered : Bool) : Bool :=
  (scheduleKind == .static || scheduleKind == .unknown) && chunkSizeOne && !ordered

/-! ## BarrierPolicy -/

/-- Kinds of loop construct relevant to the forced-barrier policy. -/
inductive LoopConstructKind where
  | distribute | parallelFor
deriving DecidableEq, Repr

/-- Clauses of a loop construct consulted by the barrier policy: whether a
`reduction` clause is present (its result is staged in block-shared
storage) and whether `nowait` was requested. -/
structure LoopClauses where
  hasReduction : Bool
  hasNowait : Bool
deriving DecidableEq, Repr

/-- Modelled from the spec: the body of `requiresBarrier` is not in the
sources.  Per the spec, the decision is a conservative per-construct-kind
table: a barrier is forced whenever the construct stages shared state that
a following statement may read (a `distribute` with a `reduction` clause),
regardless of any `nowait` request; a plain parallel loop with no shared
staging state forces nothing. -/
def requiresBarrier (kind : LoopConstructKind) (clauses : LoopClauses) : Bool :=
  match kind with
  | .distribute => clauses.hasReduction
  | .parallelFor => false

/-! ## OffloadRegistry -/

/-- One descriptor of the offload-entry table: entry ID, device address
and size, as passed to `createOffloadEntry`. -/
structure OffloadEntry where
  entryId : Nat
  entryAddr : Nat
  entrySize : Nat
deriving DecidableEq, Repr

/-- The IDs already registered in an offload-entry table. -/
def registeredIds (table : List OffloadEntry) : List Nat :=
  table.map OffloadEntry.entryId

/-- Modelled from the spec: the body of `createOffloadEntry` is not in the
sources.  Per the spec, `Record(EntryId, EntryAddress, EntrySize)` appends
one descriptor to the host-loader table; a duplicate `EntryId` is rejected
at registration time as a build-time failure, leaving the table unchanged.
Returns the resulting table and whether the registration succeeded. -/
def createOffloadEntry (table : List OffloadEntry) (id addr size : Nat) :
    List OffloadEntry × Bool :=
  if id ∈ registeredIds table then (table, false)
  else (table ++ [⟨id, addr, size⟩], true)

end NVPTX

/-- C5: `generateCoalescedSchedule` returns true iff the schedule kind is
default static (an explicit `static` or an absent clause, which defaults
to static), the chunk size is absent or exactly one, and the loop is not
ordered; in particular static with a non-unit chunk, or any ordered loop,
yields the general schedule. -/
theorem generateCoalescedSchedule_spec :
    (∀ (k : OpenMPScheduleClauseKind) (c o : Bool),
      generateCoalescedSchedule k c o = true ↔
        ((k = .static ∨ k = .unknown) ∧ c = true ∧ o = false)) ∧
    generateCoalescedSchedule .static false false = false ∧
    (∀ (k : OpenMPScheduleClauseKind) (c : Bool),
      generateCoalescedSchedule k c true = false) := by
  refine ⟨?_, by decide, ?_⟩
  · intro k c o
    cases k <;> cases c <;> cases o <;> simp [generateCoalescedSchedule]
  · intro k c
    cases k <;> cases c <;> decide

/-- C6: `requiresBarrier` is true for a `distribute` construct carrying a
reduction clause even when `nowait` is requested, and false for a plain
parallel loop with no shared staging state when `nowait` is requested; the
decision never consults the `nowait` flag (a per-construct-kind table). -/
theorem requiresBarrier_spec :
    (∀ nowait : Bool,
      requiresBarrier .distribute ⟨true, nowait⟩ = true) ∧
    (∀ nowait : Bool,
      requiresBarrier .parallelFor ⟨false, nowait⟩ = false) ∧
    (∀ (k : LoopConstructKind) (r : Bool),
      requiresBarrier k ⟨r, true⟩ = requiresBarrier k ⟨r, false⟩) := by
  refine ⟨fun _ => rfl, fun _ => rfl, ?_⟩
  intro k r
  cases k <;> rfl

/-- C7: `createOffloadEntry` appends one descriptor per fresh `EntryId`,
and a second registration reusing an already-registered `EntryId` is
rejected (a build-time failure), leaving the entry table unchanged. -/
theorem createOffloadEntry_spec (table : List OffloadEntry) (id addr size : Nat) :
    (id ∉ registeredIds table →
      createOffloadEntry table id addr size =
        (table ++ [⟨id, addr, size⟩], true)) ∧
    (id ∈ registeredIds table →
      createOffloadEntry table id addr size = (table, false)) := by
  constructor
  · intro h
    simp [createOffloadEntry, h]
  · intro h
    simp [createOffloadEntry, h]

/-- Witness for C7: registering ID 7 in a table already holding IDs 1 and 7
is rejected with the table unchanged, while a fresh ID 9 is appended. -/
theorem createOffloadEntry_spec_witness :
    (9 ∉ registeredIds [⟨1, 10, 4⟩, ⟨7, 20, 8⟩] →
      createOffloadEntry [⟨1, 10, 4⟩, ⟨7, 20, 8⟩] 9 30 16 =
        ([⟨1, 10, 4⟩, ⟨7, 20, 8⟩] ++ [⟨9, 30, 16⟩], true)) ∧
    (9 ∈ registeredIds [⟨1, 10, 4⟩, ⟨7, 20, 8⟩] →
      createOffloadEntry [⟨1, 10, 4⟩, ⟨7, 20, 8⟩] 9 30 16 =
        ([⟨1, 10, 4⟩, ⟨7, 20, 8⟩], false)) :=
  createOffloadEntry_spec [⟨1, 10, 4⟩, ⟨7, 20, 8⟩] 9 30 16

namespace NVPTX

/-! ## WorkRegistry -/

/-- Modelled from the spec: the `Work` registry of the kernel generation
session is declared in `CGOpenMPRuntimeNVPTX.h` as a vector of pointers to
outlined worker procedures; its manipulation code is not in the sources.
We model the session state as the list of registered procedures, here
identified by `Nat` handles. -/
def Work := List Nat

/-- Modelled from the spec: `Register(Procedure)` appends the procedure to
the `Work` vector and returns its dispatch index, the position at which it
was appended. -/
def registerWork (st : List Nat) (proc : Nat) : Nat × List Nat :=
  (st.length, st ++ [proc])

/-- Modelled from the spec: `Lookup(DispatchIndex)` returns the procedure
registered at that dispatch index in the `Work` vector. -/
def lookupWork (st : List Nat) (idx : Nat) : Option Nat :=
  st.get? idx

end NVPTX

/-- C8: `Register` returns monotonically increasing dispatch indices
starting at 0 (the index equals the number of procedures registered so
far), `Lookup` of a returned index yields exactly the procedure registered
under it, and the registry is append-only: registering never removes or
overwrites an existing entry. -/
theorem registerWork_spec (st : List Nat) (p : Nat) :
    (registerWork st p).1 = st.length ∧
    ((registerWork [] p).1 = 0) ∧
    (registerWork st p).1 < (registerWork (registerWork st p).2 p).1 ∧
    lookupWork (registerWork st p).2 (registerWork st p).1 = some p ∧
    (∀ i, i < st.length → lookupWork (registerWork st p).2 i = lookupWork st i) := by
  refine ⟨rfl, rfl, ?_, ?_, ?_⟩
  · simp [registerWork]
  · simp [lookupWork, registerWork, List.getElem?_append_right]
  · intro i hi
    simp [lookupWork, registerWork, List.getElem?_append_left hi]

/-- Witness for C8 at the session `[5, 6]` with procedure `9`. -/
theorem registerWork_spec_witness :
    (registerWork [5, 6] 9).1 = [5, 6].length ∧
    ((registerWork [] 9).1 = 0) ∧
    (registerWork [5, 6] 9).1 < (registerWork (registerWork [5, 6] 9).2 9).1 ∧
    lookupWork (registerWork [5, 6] 9).2 (registerWork [5, 6] 9).1 = some 9 ∧
    (∀ i, i < [5, 6].length → lookupWork (registerWork [5, 6] 9).2 i = lookupWork [5, 6] i) :=
  registerWork_spec [5, 6] 9

namespace NVPTX

/-! ## WorkerLoopGenerator and EntryOrchestrator

The generated device code is modelled as the trace of observable events a
thread produces during one kernel invocation, driven by the sequence of
rounds the master posts: each round either posts the dispatch index of a
registered region procedure or sets the termination flag. -/

/-- One round posted by the master: either work (the active dispatch
index) or the termination signal. -/
inductive Round where
  | work (idx : Nat)
  | terminate
deriving DecidableEq, Repr

/-- Observable events of a thread's execution: a full-block barrier
(`syncCTAThreads`), the invocation of the region procedure registered at
a dispatch index (worker code), or a step of the construct's top-level
code (master code: posting work, setting the termination flag). -/
inductive Event where
  | syncBlock
  | workerCall (idx : Nat)
  | masterStmt
deriving DecidableEq, Repr

/-- The dispatch indices of the region activations a trace executes. -/
def workerCalls (evs : List Event) : List Nat :=
  evs.filterMap fun e =>
    match e with
    | .workerCall i => some i
    | _ => none

/-- The number of full-block barriers (`syncCTAThreads`) a trace reaches. -/
def syncCount (evs : List Event) : Nat :=
  (evs.filter fun e =>
    match e with
    | .syncBlock => true
    | _ => false).length

/-- Modelled from the spec: the body of `emitWorkerLoop` is not in the
sources.  Per the spec's worker-loop pseudocode, each iteration reaches a
full-block barrier, breaks if termination was requested, reads the posted
dispatch index, executes the corresponding procedure when
`ThreadId() < WorkerCount()` (idles otherwise), reaches the second
full-block barrier and repeats.  The result is the trace of the worker
with thread id `tid` over the posted rounds, paired with whether the loop
returned (it returns only on a termination round). -/
def emitWorkerLoop (tid wc : Nat) : List Round → List Event × Bool
  | [] => ([], false)
  | Round.terminate :: _ => ([Event.syncBlock], true)
  | Round.work idx :: rs =>
      let rest := emitWorkerLoop tid wc rs
      (Event.syncBlock ::
        ((if tid < wc then [Event.workerCall idx] else []) ++
          Event.syncBlock :: rest.1), rest.2)

/-- Modelled from the spec: the body of `emitEntryFooter` is not in the
sources.  Per the spec's epilogue, the master sets the termination flag
(master code) and executes one final full-block barrier so parked workers
observe it and exit. -/
def emitEntryFooter : List Event :=
  [Event.masterStmt, Event.syncBlock]

/-- Modelled from the spec: the master path through the kernel.  For each
work round the master runs the construct's top-level code (posting the
dispatch index) and participates in the matching pair of full-block
barriers; on the termination round it runs the epilogue
(`emitEntryFooter`). -/
def masterPath : List Round → List Event
  | [] => []
  | Round.work _ :: rs => Event.masterStmt :: Event.syncBlock :: Event.syncBlock :: masterPath rs
  | Round.terminate :: _ => emitEntryFooter

/-- Modelled from the spec: the body of `emitEntryHeader` is not in the
sources.  Per the spec's prologue, every thread branches by role:
`ThreadId() < MasterId()` jumps into the worker procedure
(`emitWorkerLoop`) and never returns to the master path, while
`ThreadId() >= MasterId()` takes the master path. -/
def emitEntryHeader (tid masterId wc : Nat) (rounds : List Round) : List Event :=
  if tid < masterId then (emitWorkerLoop tid wc rounds).1 else masterPath rounds

end NVPTX

namespace NVPTX

/-- A session in which the master posts the work rounds `idxs` in order
and then signals termination. -/
def postedSession (idxs : List Nat) : List Round :=
  idxs.map Round.work ++ [Round.terminate]

/-- Structure of a worker's trace over a posted session: each work round
is bracketed by exactly two full-block barriers around the (possibly
idle) activation, and one final barrier observes the termination flag. -/
theorem emitWorkerLoop_session_structure (tid wc : Nat) (idxs : List Nat) :
    emitWorkerLoop tid wc (postedSession idxs) =
      ((idxs.map fun i => Event.syncBlock ::
          ((if tid < wc then [Event.workerCall i] else []) ++ [Event.syncBlock])).flatten
        ++ [Event.syncBlock], true) := by
  induction idxs with
  | nil => rfl
  | cons i is ih =>
      simp only [postedSession, List.map_cons, List.cons_append, List.flatten_cons] at *
      simp [emitWorkerLoop, ih]

/-- One work round prepends the activation of its posted index (for a
worker thread) to the activations of the remaining rounds. -/
theorem workerCalls_cons_work (tid wc idx : Nat) (rs : List Round) :
    workerCalls (emitWorkerLoop tid wc (Round.work idx :: rs)).1 =
      (if tid < wc then [idx] else []) ++
        workerCalls (emitWorkerLoop tid wc rs).1 := by
  by_cases h : tid < wc <;> simp [emitWorkerLoop, workerCalls, h]

/-- Activations executed by the thread with id `tid` over a posted
session: the posted indices, in order, when `tid` is a worker; none
otherwise. -/
theorem workerCalls_session (tid wc : Nat) (idxs : List Nat) :
    workerCalls (emitWorkerLoop tid wc (postedSession idxs)).1 =
      if tid < wc then idxs else [] := by
  induction idxs with
  | nil => simp [postedSession, emitWorkerLoop, workerCalls]
  | cons i is ih =>
      rw [show postedSession (i :: is) = Round.work i :: postedSession is from rfl,
        workerCalls_cons_work, ih]
      by_cases h : tid < wc <;> simp [h]

/-- Barrier count of a worker's trace over a posted session:
two per work round plus the final termination barrier. -/
theorem syncCount_worker_session (tid wc : Nat) (idxs : List Nat) :
    syncCount (emitWorkerLoop tid wc (postedSession idxs)).1 =
      2 * idxs.length + 1 := by
  induction idxs with
  | nil => by_cases h : tid < wc <;> simp [postedSession, emitWorkerLoop, syncCount, h]
  | cons i is ih =>
      by_cases h : tid < wc <;>
        simp_all [postedSession, emitWorkerLoop, syncCount, h, Nat.mul_add, Nat.mul_succ]

/-- The worker loop exits exactly when a termination round is posted. -/
theorem emitWorkerLoop_exits (tid wc : Nat) (idxs : List Nat) :
    (emitWorkerLoop tid wc (postedSession idxs)).2 = true ∧
    (emitWorkerLoop tid wc (idxs.map Round.work)).2 = false := by
  constructor
  · induction idxs with
    | nil => rfl
    | cons i is ih => simpa [postedSession, emitWorkerLoop] using ih
  · induction idxs with
    | nil => rfl
    | cons i is ih => simpa [emitWorkerLoop] using ih

end NVPTX

/-- C2: over a session posting `N` work rounds in order and then
termination, each work round of the worker loop is bracketed by exactly
two full-block barriers (so the barrier count is `2N + 1` with the final
termination barrier); every worker thread with `tid < WorkerCount`
executes exactly the `N` posted activations, in posted order, each with
the dispatch index posted for that round, while threads outside the
active range execute none; and the loop returns only once termination is
posted (all-work prefixes leave it running). -/
theorem emitWorkerLoop_spec (idxs : List Nat) (tid wc : Nat) :
    (tid < wc →
      workerCalls (emitWorkerLoop tid wc (postedSession idxs)).1 = idxs) ∧
    (wc ≤ tid →
      workerCalls (emitWorkerLoop tid wc (postedSession idxs)).1 = []) ∧
    (emitWorkerLoop tid wc (postedSession idxs)).1 =
      ((idxs.map fun i => Event.syncBlock ::
          ((if tid < wc then [Event.workerCall i] else []) ++ [Event.syncBlock])).flatten
        ++ [Event.syncBlock]) ∧
    syncCount (emitWorkerLoop tid wc (postedSession idxs)).1 = 2 * idxs.length + 1 ∧
    (emitWorkerLoop tid wc (postedSession idxs)).2 = true ∧
    (emitWorkerLoop tid wc (idxs.map Round.work)).2 = false := by
  refine ⟨?_, ?_, ?_, syncCount_worker_session tid wc idxs,
    (emitWorkerLoop_exits tid wc idxs).1, (emitWorkerLoop_exits tid wc idxs).2⟩
  · intro h
    rw [workerCalls_session, if_pos h]
  · intro h
    rw [workerCalls_session, if_neg (Nat.not_lt.mpr h)]
  · rw [emitWorkerLoop_session_structure]

/-- Witness for C2: posted indices `[0, 1]`, worker thread 3 of 32. -/
theorem emitWorkerLoop_spec_witness :
    (3 < 32 →
      workerCalls (emitWorkerLoop 3 32 (postedSession [0, 1])).1 = [0, 1]) ∧
    (32 ≤ 3 →
      workerCalls (emitWorkerLoop 3 32 (postedSession [0, 1])).1 = []) ∧
    (emitWorkerLoop 3 32 (postedSession [0, 1])).1 =
      (([0, 1].map fun i => Event.syncBlock ::
          ((if 3 < 32 then [Event.workerCall i] else []) ++ [Event.syncBlock])).flatten
        ++ [Event.syncBlock]) ∧
    syncCount (emitWorkerLoop 3 32 (postedSession [0, 1])).1 = 2 * [0, 1].length + 1 ∧
    (emitWorkerLoop 3 32 (postedSession [0, 1])).2 = true ∧
    (emitWorkerLoop 3 32 ([0, 1].map Round.work)).2 = false :=
  emitWorkerLoop_spec [0, 1] 3 32

namespace NVPTX

/-- The number of master-code steps a trace executes. -/
def masterStmtCount (evs : List Event) : Nat :=
  (evs.filter fun e =>
    match e with
    | .masterStmt => true
    | _ => false).length

/-- A worker's trace over a posted session contains no master code. -/
theorem masterStmtCount_worker_session (tid wc : Nat) (idxs : List Nat) :
    masterStmtCount (emitWorkerLoop tid wc (postedSession idxs)).1 = 0 := by
  induction idxs with
  | nil => rfl
  | cons i is ih =>
      rw [show postedSession (i :: is) = Round.work i :: postedSession is from rfl]
      by_cases h : tid < wc <;> simp_all [emitWorkerLoop, masterStmtCount, h]

/-- The master's trace over a posted session executes no worker
activation. -/
theorem workerCalls_masterPath (rounds : List Round) :
    workerCalls (masterPath rounds) = [] := by
  induction rounds with
  | nil => rfl
  | cons r rs ih => cases r <;> simp_all [masterPath, emitEntryFooter, workerCalls]

/-- Barrier count of the master's trace over a posted session: two per
work round plus the final termination barrier of the epilogue. -/
theorem syncCount_masterPath_session (idxs : List Nat) :
    syncCount (masterPath (postedSession idxs)) = 2 * idxs.length + 1 := by
  induction idxs with
  | nil => rfl
  | cons i is ih =>
      rw [show postedSession (i :: is) = Round.work i :: postedSession is from rfl]
      simp_all [masterPath, syncCount]
      omega

end NVPTX

/-- C3: in the generated entry prologue, every thread with
`tid >= MasterId` takes the master path and every thread with
`tid < MasterId` runs the worker procedure, whose trace contains no
master code (it never returns to the master path); the master path runs
no worker activation; and over any posted session both sides reach the
same number of full-block barriers (two per round plus the final one), so
barrier round counts stay matched. -/
theorem emitEntryHeader_spec (idxs : List Nat) (tid masterId wc : Nat) :
    (tid < masterId →
      emitEntryHeader tid masterId wc (postedSession idxs) =
        (emitWorkerLoop tid wc (postedSession idxs)).1) ∧
    (masterId ≤ tid →
      emitEntryHeader tid masterId wc (postedSession idxs) =
        masterPath (postedSession idxs)) ∧
    masterStmtCount (emitWorkerLoop tid wc (postedSession idxs)).1 = 0 ∧
    workerCalls (masterPath (postedSession idxs)) = [] ∧
    syncCount (masterPath (postedSession idxs)) =
      syncCount (emitWorkerLoop tid wc (postedSession idxs)).1 := by
  refine ⟨fun h => ?_, fun h => ?_, masterStmtCount_worker_session tid wc idxs,
    workerCalls_masterPath _, ?_⟩
  · rw [emitEntryHeader, if_pos h]
  · rw [emitEntryHeader, if_neg (Nat.not_lt.mpr h)]
  · rw [syncCount_masterPath_session, syncCount_worker_session]

/-- Witness for C3: posted indices `[4]`, thread 0 of 32 workers,
master id 32. -/
theorem emitEntryHeader_spec_witness :
    (0 < 32 →
      emitEntryHeader 0 32 32 (postedSession [4]) =
        (emitWorkerLoop 0 32 (postedSession [4])).1) ∧
    (32 ≤ 0 →
      emitEntryHeader 0 32 32 (postedSession [4]) =
        masterPath (postedSession [4])) ∧
    masterStmtCount (emitWorkerLoop 0 32 (postedSession [4])).1 = 0 ∧
    workerCalls (masterPath (postedSession [4])) = [] ∧
    syncCount (masterPath (postedSession [4])) =
      syncCount (emitWorkerLoop 0 32 (postedSession [4])).1 :=
  emitEntryHeader_spec [4] 0 32 32

namespace NVPTX

/-- Modelled from the spec: the body of `emitTargetOutlinedFunction` is
not in the sources.  Per the header, the call defines the outlined
function and its ID in every case, and per the spec only an offload entry
(`isOffloadEntry = true`) is recorded in the host-loader table via
`createOffloadEntry`; with `isOffloadEntry = false` (e.g. when the
construct's `if` clause always evaluates to false) no entry is recorded.
The outlined function and its ID are modelled by the handle `fnId`; the
result is the defined function, its defined ID, and the resulting
offload-entry table. -/
def emitTargetOutlinedFunction (table : List OffloadEntry)
    (fnId addr size : Nat) (isOffloadEntry : Bool) :
    Option Nat × Option Nat × List OffloadEntry :=
  (some fnId, some fnId,
    if isOffloadEntry then (createOffloadEntry table fnId addr size).1 else table)

end NVPTX

/-- C10: invoked with `IsOffloadEntry = false`, `emitTargetOutlinedFunction`
still defines the outlined function and its ID, but records no entry in
the offload-entry table, which is left unchanged; with
`IsOffloadEntry = true` and a fresh ID the table gains the entry. -/
theorem emitTargetOutlinedFunction_spec (table : List OffloadEntry)
    (fnId addr size : Nat) :
    (emitTargetOutlinedFunction table fnId addr size false).1 = some fnId ∧
    (emitTargetOutlinedFunction table fnId addr size false).2.1 = some fnId ∧
    (emitTargetOutlinedFunction table fnId addr size false).2.2 = table ∧
    (fnId ∉ registeredIds table →
      (emitTargetOutlinedFunction table fnId addr size true).2.2 =
        table ++ [⟨fnId, addr, size⟩]) := by
  refine ⟨rfl, rfl, rfl, fun h => ?_⟩
  simp [emitTargetOutlinedFunction, createOffloadEntry, h]

/-- Witness for C10: a one-entry table and a fresh ID 2. -/
theorem emitTargetOutlinedFunction_spec_witness :
    (emitTargetOutlinedFunction [⟨1, 5, 8⟩] 2 6 16 false).1 = some 2 ∧
    (emitTargetOutlinedFunction [⟨1, 5, 8⟩] 2 6 16 false).2.1 = some 2 ∧
    (emitTargetOutlinedFunction [⟨1, 5, 8⟩] 2 6 16 false).2.2 = [⟨1, 5, 8⟩] ∧
    (2 ∉ registeredIds [⟨1, 5, 8⟩] →
      (emitTargetOutlinedFunction [⟨1, 5, 8⟩] 2 6 16 true).2.2 =
        [⟨1, 5, 8⟩] ++ [⟨2, 6, 16⟩]) :=
  emitTargetOutlinedFunction_spec [⟨1, 5, 8⟩] 2 6 16
